import Mathlib

/-
Shallow embedding of src/src/circuitBreaker.ts.

The file contains two CircuitBreaker implementations:
 - a state-pattern variant (classes ClosedState / OpenState / HalfOpenState
   dispatched through a State interface, each with callService / onSuccess /
   onFailure), modelled in namespace StatePattern;
 - a tagged-enum variant (a single class switching on a CircuitBreakerState
   field), modelled in namespace EnumVariant.

Modelling conventions:
 - JS numbers used as counters and timestamps become Nat; a nullable
   timestamp becomes Option Nat.
 - Each call attempt is a CallEvent: the wall-clock value of Date.now at the
   moment callService is invoked (now), whether the awaited operation
   resolves (ok), and how long it takes to settle (dur), so the Date.now
   read after the await is now + dur.  All Date.now reads made before the
   operation is awaited happen at the same instant and are modelled as now;
   on paths that never await, the elapsed sample endTime - startTime is 0.
 - The JS guard "lastFailureTime && now - lastFailureTime >= timeout" is
   truthiness on the nullable number (null and 0 are falsy) followed by a
   signed comparison; with timeout a Nat, now - t >= timeout is equivalent
   to t + timeout <= now over the integers.
 - callService returns the produced result (the operation's value, the
   propagated operation error, or one of the two synthesized rejections),
   the updated breaker, and how many times the operation was invoked
   during the call.
-/

namespace CircuitBreakerTS

/-- CircuitBreakerState enum shared by both variants in the source. -/
inductive CircuitBreakerState where
  | CLOSED
  | OPEN
  | HALF_OPEN
deriving DecidableEq, Repr

/-- CircuitBreakerConfig interface: failureThreshold, timeout (cooldown in
ms), maxHalfOpenRequests (probe limit). -/
structure CircuitBreakerConfig where
  failureThreshold : Nat
  timeout : Nat
  maxHalfOpenRequests : Nat
deriving DecidableEq, Repr

/-- One call attempt: the clock value when callService is invoked, whether
the awaited operation resolves successfully, and how long it takes. -/
structure CallEvent where
  now : Nat
  ok : Bool
  dur : Nat
deriving DecidableEq, Repr

/-- What a single callService invocation produces for its caller: the
operation's value, the operation's own error propagated unchanged, the
rejection thrown while Open before cooldown, or the rejection thrown when
the Half-Open probe budget is exhausted. -/
inductive CallResult where
  | ok
  | serviceError
  | circuitOpen
  | maxHalfOpenExceeded
deriving DecidableEq, Repr

namespace StatePattern

/-- The context class of the state-pattern variant (source lines 28-138).
The current State object is identified by the CircuitBreakerState tag that
getState would report for it. -/
structure CircuitBreaker where
  state : CircuitBreakerState
  failureCount : Nat
  lastFailureTime : Option Nat
  config : CircuitBreakerConfig
  responseTimes : List Nat
  halfOpenRequestCount : Nat
deriving DecidableEq, Repr

/-- The constructor: Closed, zero counters, empty history. -/
def CircuitBreaker.new (config : CircuitBreakerConfig) : CircuitBreaker :=
  { state := .CLOSED, failureCount := 0, lastFailureTime := none,
    config := config, responseTimes := [], halfOpenRequestCount := 0 }

/-- recordFailure: increments failureCount and stamps lastFailureTime with
the current clock value t. -/
def CircuitBreaker.recordFailure (b : CircuitBreaker) (t : Nat) : CircuitBreaker :=
  { b with failureCount := b.failureCount + 1, lastFailureTime := some t }

/-- reset: zeroes failureCount, clears lastFailureTime, zeroes
halfOpenRequestCount. -/
def CircuitBreaker.reset (b : CircuitBreaker) : CircuitBreaker :=
  { b with failureCount := 0, lastFailureTime := none, halfOpenRequestCount := 0 }

/-- recordResponseTime: appends one elapsed-time sample. -/
def CircuitBreaker.recordResponseTime (b : CircuitBreaker) (time : Nat) : CircuitBreaker :=
  { b with responseTimes := b.responseTimes ++ [time] }

/-- incrementHalfOpenRequest. -/
def CircuitBreaker.incrementHalfOpenRequest (b : CircuitBreaker) : CircuitBreaker :=
  { b with halfOpenRequestCount := b.halfOpenRequestCount + 1 }

/-- ClosedState.onSuccess: context.reset(). -/
def closedOnSuccess (b : CircuitBreaker) : CircuitBreaker :=
  b.reset

/-- ClosedState.onFailure: recordFailure, then open the circuit once the
failure count reaches the threshold. -/
def closedOnFailure (b : CircuitBreaker) (t : Nat) : CircuitBreaker :=
  let b := b.recordFailure t
  if b.config.failureThreshold ≤ b.failureCount then { b with state := .OPEN } else b

/-- HalfOpenState.onSuccess: transition to Closed and reset. -/
def halfOpenOnSuccess (b : CircuitBreaker) : CircuitBreaker :=
  CircuitBreaker.reset { b with state := .CLOSED }

/-- HalfOpenState.onFailure: transition back to Open.  Note: unlike the
Closed handler, it does not call recordFailure. -/
def halfOpenOnFailure (b : CircuitBreaker) : CircuitBreaker :=
  { b with state := .OPEN }

/-- The OpenState guard "lastFailureTime && now - lastFailureTime >=
timeout": lastFailureTime must be non-null and nonzero (JS truthiness) and
the cooldown must have elapsed. -/
def openGate (b : CircuitBreaker) (now : Nat) : Bool :=
  match b.lastFailureTime with
  | some t => (t != 0) && decide (t + b.config.timeout ≤ now)
  | none => false

/-- ClosedState.callService: execute, record the elapsed sample, then run
the success or failure handler; the operation error propagates. -/
def closedCallService (b : CircuitBreaker) (e : CallEvent) :
    CallResult × CircuitBreaker × Nat :=
  if e.ok then
    (.ok, closedOnSuccess (b.recordResponseTime e.dur), 1)
  else
    (.serviceError, closedOnFailure (b.recordResponseTime e.dur) (e.now + e.dur), 1)

/-- HalfOpenState.callService: reject once halfOpenRequestCount has reached
maxHalfOpenRequests (transitioning to Open, recording no sample and not
executing); otherwise count the probe, execute, record the sample and run
the matching handler. -/
def halfOpenCallService (b : CircuitBreaker) (e : CallEvent) :
    CallResult × CircuitBreaker × Nat :=
  if b.config.maxHalfOpenRequests ≤ b.halfOpenRequestCount then
    (.maxHalfOpenExceeded, { b with state := .OPEN }, 0)
  else
    let b := b.incrementHalfOpenRequest
    if e.ok then
      (.ok, halfOpenOnSuccess (b.recordResponseTime e.dur), 1)
    else
      (.serviceError, halfOpenOnFailure (b.recordResponseTime e.dur), 1)

/-- CircuitBreaker.callService dispatches on the current state object.
OpenState.callService either blocks (recording a near-zero sample and
throwing the open-circuit error) or, when the gate passes, sets the state
to HalfOpen and re-dispatches the same call through context.callService,
which now lands in HalfOpenState.callService. -/
def CircuitBreaker.callService (b : CircuitBreaker) (e : CallEvent) :
    CallResult × CircuitBreaker × Nat :=
  match b.state with
  | .CLOSED => closedCallService b e
  | .HALF_OPEN => halfOpenCallService b e
  | .OPEN =>
    if openGate b e.now then
      halfOpenCallService { b with state := .HALF_OPEN } e
    else
      (.circuitOpen, b.recordResponseTime 0, 0)

/-- Run a sequence of call attempts, collecting the produced results in
order and the total number of times the operation was invoked. -/
def CircuitBreaker.runCalls : CircuitBreaker → List CallEvent →
    CircuitBreaker × List CallResult × Nat
  | b, [] => (b, [], 0)
  | b, e :: es =>
    let step := b.callService e
    let rest := CircuitBreaker.runCalls step.2.1 es
    (rest.1, step.1 :: rest.2.1, step.2.2 + rest.2.2)

end StatePattern

namespace EnumVariant

/-- The tagged-enum variant of CircuitBreaker (source lines 266-359).
It has no half-open request counter. -/
structure CircuitBreaker where
  state : CircuitBreakerState
  failureCount : Nat
  lastFailureTime : Option Nat
  config : CircuitBreakerConfig
  responseTimes : List Nat
deriving DecidableEq, Repr

/-- The constructor: Closed, zero counters, empty history. -/
def CircuitBreaker.new (config : CircuitBreakerConfig) : CircuitBreaker :=
  { state := .CLOSED, failureCount := 0, lastFailureTime := none,
    config := config, responseTimes := [] }

/-- reset: zeroes failureCount and clears lastFailureTime. -/
def CircuitBreaker.reset (b : CircuitBreaker) : CircuitBreaker :=
  { b with failureCount := 0, lastFailureTime := none }

/-- Appending one sample to responseTimes (this.responseTimes.push). -/
def CircuitBreaker.pushResponseTime (b : CircuitBreaker) (time : Nat) : CircuitBreaker :=
  { b with responseTimes := b.responseTimes ++ [time] }

/-- onSuccess: Half-Open closes and resets; Closed resets; Open untouched. -/
def CircuitBreaker.onSuccess (b : CircuitBreaker) : CircuitBreaker :=
  if b.state = .HALF_OPEN then CircuitBreaker.reset { b with state := .CLOSED }
  else if b.state = .CLOSED then b.reset
  else b

/-- onFailure: always increments failureCount and stamps lastFailureTime,
then trips Closed to Open at the threshold, or sends Half-Open back to
Open. -/
def CircuitBreaker.onFailure (b : CircuitBreaker) (t : Nat) : CircuitBreaker :=
  let b := { b with failureCount := b.failureCount + 1, lastFailureTime := some t }
  if b.state = .CLOSED ∧ b.config.failureThreshold ≤ b.failureCount then
    { b with state := .OPEN }
  else if b.state = .HALF_OPEN then
    { b with state := .OPEN }
  else b

/-- The Open-state guard, identical in form to the state-pattern one. -/
def openGate (b : CircuitBreaker) (now : Nat) : Bool :=
  match b.lastFailureTime with
  | some t => (t != 0) && decide (t + b.config.timeout ≤ now)
  | none => false

/-- callService: while Open, either block before cooldown (sample, throw)
or move to Half-Open and fall through; then execute the operation, record
the sample measured from the top of the call, and run onSuccess or
onFailure. -/
def CircuitBreaker.callService (b : CircuitBreaker) (e : CallEvent) :
    CallResult × CircuitBreaker × Nat :=
  if b.state = .OPEN ∧ openGate b e.now = false then
    (.circuitOpen, b.pushResponseTime 0, 0)
  else
    let b := if b.state = .OPEN then { b with state := .HALF_OPEN } else b
    if e.ok then
      (.ok, (b.pushResponseTime e.dur).onSuccess, 1)
    else
      (.serviceError, (b.pushResponseTime e.dur).onFailure (e.now + e.dur), 1)

/-- Run a sequence of call attempts, collecting the produced results in
order and the total number of times the operation was invoked. -/
def CircuitBreaker.runCalls : CircuitBreaker → List CallEvent →
    CircuitBreaker × List CallResult × Nat
  | b, [] => (b, [], 0)
  | b, e :: es =>
    let step := b.callService e
    let rest := CircuitBreaker.runCalls step.2.1 es
    (rest.1, step.1 :: rest.2.1, step.2.2 + rest.2.2)

end EnumVariant

/-- Correspondence between a state-pattern breaker and an enum breaker: all
observable fields the two variants share are equal (the state-pattern
halfOpenRequestCount has no counterpart). -/
def Agrees (sp : StatePattern.CircuitBreaker) (en : EnumVariant.CircuitBreaker) : Prop :=
  sp.state = en.state ∧ sp.failureCount = en.failureCount ∧
  sp.lastFailureTime = en.lastFailureTime ∧ sp.config = en.config ∧
  sp.responseTimes = en.responseTimes

/-- A state-pattern breaker that has just suffered a probe-limit rejection:
it is Open and its probe budget is already consumed. -/
def LockedOut (b : StatePattern.CircuitBreaker) : Prop :=
  b.state = .OPEN ∧ b.config.maxHalfOpenRequests ≤ b.halfOpenRequestCount

/-- A small concrete configuration: threshold 1, cooldown 1 ms, probe
budget 1. -/
def cfgEx : CircuitBreakerConfig := ⟨1, 1, 1⟩

/-- A concrete three-call scenario: a Closed-state failure at t = 10 (trips
the breaker), a half-open probe failure at t = 20 (after cooldown), and a
third call at t = 30 whose operation would succeed. -/
def traceEx : List CallEvent := [⟨10, false, 0⟩, ⟨20, false, 0⟩, ⟨30, true, 0⟩]

/-- The full state-pattern run of traceEx. -/
def spRunEx : StatePattern.CircuitBreaker × List CallResult × Nat :=
  StatePattern.CircuitBreaker.runCalls (StatePattern.CircuitBreaker.new cfgEx) traceEx

/-- The full enum-variant run of traceEx. -/
def enRunEx : EnumVariant.CircuitBreaker × List CallResult × Nat :=
  EnumVariant.CircuitBreaker.runCalls (EnumVariant.CircuitBreaker.new cfgEx) traceEx

/-- The state-pattern breaker after the first two calls of traceEx: tripped
at t = 10, then a half-open probe failed at t = 20, so it is Open with its
probe budget already consumed. -/
def spAfterTwo : StatePattern.CircuitBreaker :=
  (StatePattern.CircuitBreaker.runCalls (StatePattern.CircuitBreaker.new cfgEx)
    [⟨10, false, 0⟩, ⟨20, false, 0⟩]).1

/-- A concrete Half-Open breaker whose probe budget is already consumed. -/
def bC2 : StatePattern.CircuitBreaker := ⟨.HALF_OPEN, 0, some 10, cfgEx, [], 1⟩

/-- Unfolding equation for a state-pattern run on the empty sequence. -/
theorem spRunCalls_nil (b : StatePattern.CircuitBreaker) :
    StatePattern.CircuitBreaker.runCalls b [] = (b, [], 0) := rfl

/-- Unfolding equation for a state-pattern run on a nonempty sequence. -/
theorem spRunCalls_cons (b : StatePattern.CircuitBreaker) (e : CallEvent)
    (es : List CallEvent) :
    StatePattern.CircuitBreaker.runCalls b (e :: es) =
      ((StatePattern.CircuitBreaker.runCalls (b.callService e).2.1 es).1,
       (b.callService e).1 ::
         (StatePattern.CircuitBreaker.runCalls (b.callService e).2.1 es).2.1,
       (b.callService e).2.2 +
         (StatePattern.CircuitBreaker.runCalls (b.callService e).2.1 es).2.2) := rfl

/-- Unfolding equation for an enum-variant run on the empty sequence. -/
theorem enRunCalls_nil (b : EnumVariant.CircuitBreaker) :
    EnumVariant.CircuitBreaker.runCalls b [] = (b, [], 0) := rfl

/-- Unfolding equation for an enum-variant run on a nonempty sequence. -/
theorem enRunCalls_cons (b : EnumVariant.CircuitBreaker) (e : CallEvent)
    (es : List CallEvent) :
    EnumVariant.CircuitBreaker.runCalls b (e :: es) =
      ((EnumVariant.CircuitBreaker.runCalls (b.callService e).2.1 es).1,
       (b.callService e).1 ::
         (EnumVariant.CircuitBreaker.runCalls (b.callService e).2.1 es).2.1,
       (b.callService e).2.2 +
         (EnumVariant.CircuitBreaker.runCalls (b.callService e).2.1 es).2.2) := rfl

/-- Any property preserved by one state-pattern callService step holds at
the end of any call sequence. -/
theorem spRunPreserves (P : StatePattern.CircuitBreaker → Prop)
    (hstep : ∀ b e, P b → P (b.callService e).2.1)
    (es : List CallEvent) :
    ∀ b, P b → P (StatePattern.CircuitBreaker.runCalls b es).1 := by
  induction es with
  | nil => exact fun b hb => hb
  | cons e es ih => exact fun b hb => ih (b.callService e).2.1 (hstep b e hb)

/-- Any property preserved by one enum-variant callService step holds at
the end of any call sequence. -/
theorem enRunPreserves (P : EnumVariant.CircuitBreaker → Prop)
    (hstep : ∀ b e, P b → P (b.callService e).2.1)
    (es : List CallEvent) :
    ∀ b, P b → P (EnumVariant.CircuitBreaker.runCalls b es).1 := by
  induction es with
  | nil => exact fun b hb => hb
  | cons e es ih => exact fun b hb => ih (b.callService e).2.1 (hstep b e hb)

/-- A call dispatched under Half-Open rules with the probe budget consumed
is the probe-limit rejection and moves the breaker to Open. -/
theorem probe_reject_eq (b : StatePattern.CircuitBreaker) (e : CallEvent)
    (hs : b.state = .HALF_OPEN ∨ (b.state = .OPEN ∧ StatePattern.openGate b e.now = true))
    (hc : b.config.maxHalfOpenRequests ≤ b.halfOpenRequestCount) :
    b.callService e = (.maxHalfOpenExceeded, { b with state := .OPEN }, 0) := by
  rcases hs with hs | ⟨hs, hg⟩
  · simp [StatePattern.CircuitBreaker.callService, hs, StatePattern.halfOpenCallService, hc]
  · simp [StatePattern.CircuitBreaker.callService, hs, hg,
      StatePattern.halfOpenCallService, hc]

/-- C2: a call dispatched under Half-Open rules (directly, or through the
Open-state re-dispatch) while halfOpenRequestCount has reached
maxHalfOpenRequests transitions the breaker to Open and fails with the
probe-limit rejection, invoking the operation zero times and leaving every
other field unchanged. -/
theorem halfOpen_probe_limit_rejects (b : StatePattern.CircuitBreaker) (e : CallEvent)
    (hs : b.state = .HALF_OPEN ∨ (b.state = .OPEN ∧ StatePattern.openGate b e.now = true))
    (hc : b.config.maxHalfOpenRequests ≤ b.halfOpenRequestCount) :
    b.callService e = (.maxHalfOpenExceeded, { b with state := .OPEN }, 0) :=
  probe_reject_eq b e hs hc

/-- Witness for C2 at a concrete Half-Open breaker with its budget spent. -/
theorem halfOpen_probe_limit_rejects_witness :
    (bC2.state = .HALF_OPEN ∨ (bC2.state = .OPEN ∧ StatePattern.openGate bC2 0 = true)) ∧
    bC2.config.maxHalfOpenRequests ≤ bC2.halfOpenRequestCount ∧
    bC2.callService ⟨0, true, 0⟩ = (.maxHalfOpenExceeded, { bC2 with state := .OPEN }, 0) :=
  ⟨Or.inl rfl, by decide,
    halfOpen_probe_limit_rejects bC2 ⟨0, true, 0⟩ (Or.inl rfl) (by decide)⟩

/-- C9: while Open before the cooldown has elapsed since lastFailureTime,
both variants reject the call with the open-circuit error, never invoke the
operation, and change nothing except appending the near-zero sample. -/
theorem open_before_cooldown_blocks (b : StatePattern.CircuitBreaker)
    (en : EnumVariant.CircuitBreaker) (e : CallEvent) (t u : Nat)
    (hs : b.state = .OPEN) (hl : b.lastFailureTime = some t)
    (hb : e.now < t + b.config.timeout)
    (hs2 : en.state = .OPEN) (hl2 : en.lastFailureTime = some u)
    (hb2 : e.now < u + en.config.timeout) :
    b.callService e = (.circuitOpen, { b with responseTimes := b.responseTimes ++ [0] }, 0) ∧
    en.callService e = (.circuitOpen, { en with responseTimes := en.responseTimes ++ [0] }, 0) := by
  have hg : StatePattern.openGate b e.now = false := by
    simp [StatePattern.openGate, hl]
    omega
  have hg2 : EnumVariant.openGate en e.now = false := by
    simp [EnumVariant.openGate, hl2]
    omega
  constructor
  · simp [StatePattern.CircuitBreaker.callService, hs, hg,
      StatePattern.CircuitBreaker.recordResponseTime]
  · simp [EnumVariant.CircuitBreaker.callService, hs2, hg2,
      EnumVariant.CircuitBreaker.pushResponseTime]

/-- Witness for C9 at concrete Open breakers one tick before cooldown. -/
theorem open_before_cooldown_blocks_witness :
    StatePattern.CircuitBreaker.callService ⟨.OPEN, 1, some 10, cfgEx, [], 0⟩ ⟨10, true, 0⟩
      = (.circuitOpen, ⟨.OPEN, 1, some 10, cfgEx, [0], 0⟩, 0) ∧
    EnumVariant.CircuitBreaker.callService ⟨.OPEN, 1, some 10, cfgEx, []⟩ ⟨10, true, 0⟩
      = (.circuitOpen, ⟨.OPEN, 1, some 10, cfgEx, [0]⟩, 0) :=
  open_before_cooldown_blocks ⟨.OPEN, 1, some 10, cfgEx, [], 0⟩
    ⟨.OPEN, 1, some 10, cfgEx, []⟩ ⟨10, true, 0⟩ 10 10
    rfl rfl (by decide) rfl rfl (by decide)

/-- C10: reset zeroes failureCount, clears lastFailureTime and (in the
state-pattern variant) zeroes halfOpenRequestCount, while leaving the state
and the responseTimes history unchanged, in both variants, from every
breaker value. -/
theorem resetCounters_frame (b : StatePattern.CircuitBreaker) (en : EnumVariant.CircuitBreaker) :
    b.reset.failureCount = 0 ∧ b.reset.lastFailureTime = none ∧
    b.reset.halfOpenRequestCount = 0 ∧ b.reset.state = b.state ∧
    b.reset.responseTimes = b.responseTimes ∧
    en.reset.failureCount = 0 ∧ en.reset.lastFailureTime = none ∧
    en.reset.state = en.state ∧ en.reset.responseTimes = en.responseTimes :=
  ⟨rfl, rfl, rfl, rfl, rfl, rfl, rfl, rfl, rfl⟩

/-- C1 counterexample: on the concrete three-call scenario traceEx the two
variants disagree on the produced results (the state-pattern run rejects
the third call with the probe-limit error while the enum run executes it
successfully), on the final state, on the length of the timing history and
on lastFailureTime. -/
theorem variants_inequivalent_counterexample :
    spRunEx.2.1 = [.serviceError, .serviceError, .maxHalfOpenExceeded] ∧
    enRunEx.2.1 = [.serviceError, .serviceError, .ok] ∧
    spRunEx.1.state = .OPEN ∧ enRunEx.1.state = .CLOSED ∧
    spRunEx.1.responseTimes.length = 2 ∧ enRunEx.1.responseTimes.length = 3 ∧
    spRunEx.1.lastFailureTime = some 10 ∧ enRunEx.1.lastFailureTime = none := by
  decide

/-- C3 counterexample: after the three calls of traceEx the state-pattern
breaker holds only two timing samples, because the probe-limit rejection of
the third call appends none. -/
theorem responseTimes_length_counterexample :
    traceEx.length = 3 ∧ spRunEx.1.responseTimes.length = 2 := by decide

/-- C4 counterexample: the third call of the scenario enters Half-Open
through the Open-state gate while halfOpenRequestCount is still 1, not 0 —
entry into Half-Open did not reset the probe counter, so the call is
rejected by the probe limit instead of executing. -/
theorem probeCount_reset_counterexample :
    spAfterTwo.state = .OPEN ∧
    StatePattern.openGate spAfterTwo 30 = true ∧
    spAfterTwo.halfOpenRequestCount = 1 ∧
    spAfterTwo.config.maxHalfOpenRequests = 1 ∧
    (spAfterTwo.callService ⟨30, true, 0⟩).1 = .maxHalfOpenExceeded ∧
    (spAfterTwo.callService ⟨30, true, 0⟩).2.2 = 0 := by decide

/-- C6 counterexample: in the state-pattern run the second call executes
the operation and it fails at t = 20, yet lastFailureTime still holds the
earlier value 10 — a Half-Open probe failure does not stamp
lastFailureTime. -/
theorem lastFailureTime_counterexample :
    (StatePattern.CircuitBreaker.runCalls (StatePattern.CircuitBreaker.new cfgEx)
        [⟨10, false, 0⟩, ⟨20, false, 0⟩]).2.1 = [.serviceError, .serviceError] ∧
    spAfterTwo.lastFailureTime = some 10 := by decide

/-- C7 counterexample: spAfterTwo is Open with lastFailureTime 10 and
cooldown 1, so the call at t = 40 passes the gate and is re-dispatched
under Half-Open rules, yet the operation is invoked zero times and no
timing sample is appended, because the probe budget is already spent. -/
theorem open_redispatch_counterexample :
    spAfterTwo.state = .OPEN ∧
    spAfterTwo.lastFailureTime = some 10 ∧
    spAfterTwo.config.timeout = 1 ∧
    (spAfterTwo.callService ⟨40, true, 0⟩).2.2 = 0 ∧
    (spAfterTwo.callService ⟨40, true, 0⟩).2.1.responseTimes = spAfterTwo.responseTimes := by
  decide

/-- One callService step preserves "Closed implies probe counter zero". -/
theorem probeCount_closed_step (b : StatePattern.CircuitBreaker) (e : CallEvent)
    (h : b.state = .CLOSED → b.halfOpenRequestCount = 0) :
    (b.callService e).2.1.state = .CLOSED →
    (b.callService e).2.1.halfOpenRequestCount = 0 := by
  obtain ⟨st, fc, lf, cfg, rts, hoc⟩ := b
  obtain ⟨now, ok, dur⟩ := e
  cases st <;> cases ok <;>
    simp_all [StatePattern.CircuitBreaker.callService, StatePattern.closedCallService,
      StatePattern.halfOpenCallService, StatePattern.closedOnSuccess,
      StatePattern.closedOnFailure, StatePattern.halfOpenOnSuccess,
      StatePattern.halfOpenOnFailure, StatePattern.CircuitBreaker.reset,
      StatePattern.CircuitBreaker.recordFailure,
      StatePattern.CircuitBreaker.recordResponseTime,
      StatePattern.CircuitBreaker.incrementHalfOpenRequest] <;>
    split_ifs <;> simp_all

/-- C4 amended: in every reachable state-pattern breaker the probe counter
is zero whenever the state is Closed — every transition into Closed resets
it — while entry into Half-Open performs no reset. -/
theorem probeCount_zero_in_closed (cfg : CircuitBreakerConfig) (es : List CallEvent)
    (h : ((StatePattern.CircuitBreaker.new cfg).runCalls es).1.state = .CLOSED) :
    ((StatePattern.CircuitBreaker.new cfg).runCalls es).1.halfOpenRequestCount = 0 :=
  spRunPreserves (fun b => b.state = .CLOSED → b.halfOpenRequestCount = 0)
    probeCount_closed_step es (StatePattern.CircuitBreaker.new cfg) (fun _ => rfl) h

/-- Witness for the amended C4 on a run that trips the breaker and then
recovers through a successful probe back into Closed. -/
theorem probeCount_zero_in_closed_witness :
    ((StatePattern.CircuitBreaker.new cfgEx).runCalls
        [⟨10, false, 0⟩, ⟨20, true, 0⟩]).1.state = .CLOSED ∧
    ((StatePattern.CircuitBreaker.new cfgEx).runCalls
        [⟨10, false, 0⟩, ⟨20, true, 0⟩]).1.halfOpenRequestCount = 0 :=
  ⟨by decide, probeCount_zero_in_closed cfgEx [⟨10, false, 0⟩, ⟨20, true, 0⟩] (by decide)⟩

/-- A step from a locked-out breaker is rejected without invoking the
operation and leaves the breaker locked out. -/
theorem lockedOut_step (b : StatePattern.CircuitBreaker) (e : CallEvent)
    (h : LockedOut b) :
    ((b.callService e).1 = .circuitOpen ∨ (b.callService e).1 = .maxHalfOpenExceeded) ∧
    (b.callService e).2.2 = 0 ∧ LockedOut (b.callService e).2.1 := by
  obtain ⟨hs, hc⟩ := h
  by_cases hg : StatePattern.openGate b e.now = true
  · rw [probe_reject_eq b e (Or.inr ⟨hs, hg⟩) hc]
    exact ⟨Or.inr rfl, rfl, rfl, hc⟩
  · have hg' : StatePattern.openGate b e.now = false := by
      simpa using hg
    have hstep : b.callService e = (.circuitOpen, b.recordResponseTime 0, 0) := by
      simp [StatePattern.CircuitBreaker.callService, hs, hg']
    rw [hstep]
    exact ⟨Or.inl rfl, rfl, hs, hc⟩

/-- A locked-out breaker never invokes the operation over any further call
sequence; every result is one of the two synthesized rejections. -/
theorem lockedOut_run (es : List CallEvent) :
    ∀ b, LockedOut b →
      (StatePattern.CircuitBreaker.runCalls b es).2.2 = 0 ∧
      ∀ r ∈ (StatePattern.CircuitBreaker.runCalls b es).2.1,
        r = .circuitOpen ∨ r = .maxHalfOpenExceeded := by
  induction es with
  | nil =>
    intro b _
    simp [spRunCalls_nil]
  | cons e es ih =>
    intro b hb
    obtain ⟨hr, hn, hl⟩ := lockedOut_step b e hb
    obtain ⟨ih1, ih2⟩ := ih (b.callService e).2.1 hl
    rw [spRunCalls_cons]
    constructor
    · simp [hn, ih1]
    · intro r hrmem
      rcases List.mem_cons.mp hrmem with hr' | hr'
      · subst hr'
        exact hr
      · exact ih2 r hr'

/-- C5: once a state-pattern call has been rejected by the probe limit, the
operation is never executed again on any later call: every subsequent call
is rejected with the open-circuit or the probe-limit error. -/
theorem probe_limit_lockout (b : StatePattern.CircuitBreaker) (e : CallEvent)
    (es : List CallEvent)
    (h : (b.callService e).1 = .maxHalfOpenExceeded) :
    (StatePattern.CircuitBreaker.runCalls (b.callService e).2.1 es).2.2 = 0 ∧
    ∀ r ∈ (StatePattern.CircuitBreaker.runCalls (b.callService e).2.1 es).2.1,
      r = .circuitOpen ∨ r = .maxHalfOpenExceeded := by
  have hl : LockedOut (b.callService e).2.1 := by
    obtain ⟨st, fc, lf, cfg, rts, hoc⟩ := b
    obtain ⟨now, ok, dur⟩ := e
    cases st <;> cases ok <;>
      simp_all [StatePattern.CircuitBreaker.callService, StatePattern.closedCallService,
        StatePattern.halfOpenCallService, StatePattern.closedOnSuccess,
        StatePattern.closedOnFailure, StatePattern.halfOpenOnSuccess,
        StatePattern.halfOpenOnFailure, StatePattern.CircuitBreaker.reset,
        StatePattern.CircuitBreaker.recordFailure,
        StatePattern.CircuitBreaker.recordResponseTime,
        StatePattern.CircuitBreaker.incrementHalfOpenRequest, LockedOut] <;>
      split_ifs <;> simp_all
  exact lockedOut_run es _ hl

/-- Witness for C5: after the probe-limit rejection of spAfterTwo's next
call, two further calls (one before cooldown, one after) never invoke the
operation. -/
theorem probe_limit_lockout_witness :
    (spAfterTwo.callService ⟨30, true, 0⟩).1 = .maxHalfOpenExceeded ∧
    (StatePattern.CircuitBreaker.runCalls (spAfterTwo.callService ⟨30, true, 0⟩).2.1
        [⟨30, true, 5⟩, ⟨50, true, 5⟩]).2.2 = 0 :=
  ⟨by decide,
    (probe_limit_lockout spAfterTwo ⟨30, true, 0⟩ [⟨30, true, 5⟩, ⟨50, true, 5⟩]
      (by decide)).1⟩

/-- One state-pattern step preserves "not Closed implies lastFailureTime
non-null". -/
theorem sp_lastFailure_nonnull_step (b : StatePattern.CircuitBreaker) (e : CallEvent)
    (h : b.state ≠ .CLOSED → b.lastFailureTime ≠ none) :
    (b.callService e).2.1.state ≠ .CLOSED →
    (b.callService e).2.1.lastFailureTime ≠ none := by
  obtain ⟨st, fc, lf, cfg, rts, hoc⟩ := b
  obtain ⟨now, ok, dur⟩ := e
  cases st <;> cases ok <;>
    simp_all [StatePattern.CircuitBreaker.callService, StatePattern.closedCallService,
      StatePattern.halfOpenCallService, StatePattern.closedOnSuccess,
      StatePattern.closedOnFailure, StatePattern.halfOpenOnSuccess,
      StatePattern.halfOpenOnFailure, StatePattern.CircuitBreaker.reset,
      StatePattern.CircuitBreaker.recordFailure,
      StatePattern.CircuitBreaker.recordResponseTime,
      StatePattern.CircuitBreaker.incrementHalfOpenRequest] <;>
    split_ifs <;> simp_all

/-- One enum-variant step preserves "not Closed implies lastFailureTime
non-null". -/
theorem en_lastFailure_nonnull_step (b : EnumVariant.CircuitBreaker) (e : CallEvent)
    (h : b.state ≠ .CLOSED → b.lastFailureTime ≠ none) :
    (b.callService e).2.1.state ≠ .CLOSED →
    (b.callService e).2.1.lastFailureTime ≠ none := by
  obtain ⟨st, fc, lf, cfg, rts⟩ := b
  obtain ⟨now, ok, dur⟩ := e
  cases st <;> cases ok <;>
    simp_all [EnumVariant.CircuitBreaker.callService, EnumVariant.CircuitBreaker.onSuccess,
      EnumVariant.CircuitBreaker.onFailure, EnumVariant.CircuitBreaker.reset,
      EnumVariant.CircuitBreaker.pushResponseTime, EnumVariant.openGate] <;>
    split_ifs <;> simp_all

/-- C6 amended: lastFailureTime is stamped with the current time on every
Closed-state failure (state pattern) and on every executed failure in any
state (enum variant); a state-pattern Half-Open probe failure leaves it
unchanged; and in every reachable state of either variant it is non-null
whenever the state is not Closed. -/
theorem lastFailureTime_amended (b : StatePattern.CircuitBreaker)
    (en : EnumVariant.CircuitBreaker) (e : CallEvent)
    (cfg : CircuitBreakerConfig) (es : List CallEvent) :
    (b.state = .CLOSED → e.ok = false →
      (b.callService e).2.1.lastFailureTime = some (e.now + e.dur)) ∧
    (b.state = .HALF_OPEN → e.ok = false →
      b.halfOpenRequestCount < b.config.maxHalfOpenRequests →
      (b.callService e).2.1.lastFailureTime = b.lastFailureTime) ∧
    ((en.callService e).1 = .serviceError →
      (en.callService e).2.1.lastFailureTime = some (e.now + e.dur)) ∧
    (((StatePattern.CircuitBreaker.new cfg).runCalls es).1.state ≠ .CLOSED →
      ((StatePattern.CircuitBreaker.new cfg).runCalls es).1.lastFailureTime ≠ none) ∧
    (((EnumVariant.CircuitBreaker.new cfg).runCalls es).1.state ≠ .CLOSED →
      ((EnumVariant.CircuitBreaker.new cfg).runCalls es).1.lastFailureTime ≠ none) := by
  refine ⟨?_, ?_, ?_, ?_, ?_⟩
  · intro hs hok
    simp [StatePattern.CircuitBreaker.callService, hs, StatePattern.closedCallService, hok,
      StatePattern.closedOnFailure, StatePattern.CircuitBreaker.recordFailure,
      StatePattern.CircuitBreaker.recordResponseTime]
    split_ifs <;> rfl
  · intro hs hok hc
    have hc' : ¬ b.config.maxHalfOpenRequests ≤ b.halfOpenRequestCount := by omega
    simp [StatePattern.CircuitBreaker.callService, hs, StatePattern.halfOpenCallService,
      hok, hc', StatePattern.halfOpenOnFailure,
      StatePattern.CircuitBreaker.recordResponseTime,
      StatePattern.CircuitBreaker.incrementHalfOpenRequest]
  · intro hres
    obtain ⟨st, fc, lf, cfg', rts⟩ := en
    obtain ⟨now, ok, dur⟩ := e
    cases st <;> cases ok <;>
      simp_all [EnumVariant.CircuitBreaker.callService, EnumVariant.CircuitBreaker.onSuccess,
        EnumVariant.CircuitBreaker.onFailure, EnumVariant.CircuitBreaker.reset,
        EnumVariant.CircuitBreaker.pushResponseTime, EnumVariant.openGate] <;>
      split_ifs <;> simp_all
  · exact spRunPreserves (fun b => b.state ≠ .CLOSED → b.lastFailureTime ≠ none)
      sp_lastFailure_nonnull_step es (StatePattern.CircuitBreaker.new cfg)
      (fun hne => absurd rfl hne)
  · exact enRunPreserves (fun b => b.state ≠ .CLOSED → b.lastFailureTime ≠ none)
      en_lastFailure_nonnull_step es (EnumVariant.CircuitBreaker.new cfg)
      (fun hne => absurd rfl hne)

/-- Witness for the amended C6, applied at a Closed failure, a Half-Open
probe failure, an enum-variant failure, and a one-call tripping run. -/
theorem lastFailureTime_amended_witness :
    ((StatePattern.CircuitBreaker.new cfgEx).callService
        ⟨10, false, 0⟩).2.1.lastFailureTime = some 10 ∧
    (StatePattern.CircuitBreaker.callService ⟨.HALF_OPEN, 1, some 5, cfgEx, [], 0⟩
        ⟨20, false, 0⟩).2.1.lastFailureTime = some 5 ∧
    ((EnumVariant.CircuitBreaker.new cfgEx).callService
        ⟨10, false, 0⟩).2.1.lastFailureTime = some 10 ∧
    ((StatePattern.CircuitBreaker.new cfgEx).runCalls
        [⟨10, false, 0⟩]).1.lastFailureTime ≠ none ∧
    ((EnumVariant.CircuitBreaker.new cfgEx).runCalls
        [⟨10, false, 0⟩]).1.lastFailureTime ≠ none := by
  refine ⟨?_, ?_, ?_, ?_, ?_⟩
  · exact (lastFailureTime_amended (StatePattern.CircuitBreaker.new cfgEx)
      (EnumVariant.CircuitBreaker.new cfgEx) ⟨10, false, 0⟩ cfgEx []).1 rfl rfl
  · exact (lastFailureTime_amended ⟨.HALF_OPEN, 1, some 5, cfgEx, [], 0⟩
      (EnumVariant.CircuitBreaker.new cfgEx) ⟨20, false, 0⟩ cfgEx []).2.1 rfl rfl (by decide)
  · exact (lastFailureTime_amended (StatePattern.CircuitBreaker.new cfgEx)
      (EnumVariant.CircuitBreaker.new cfgEx) ⟨10, false, 0⟩ cfgEx []).2.2.1 (by decide)
  · exact (lastFailureTime_amended (StatePattern.CircuitBreaker.new cfgEx)
      (EnumVariant.CircuitBreaker.new cfgEx) ⟨10, false, 0⟩ cfgEx
      [⟨10, false, 0⟩]).2.2.2.1 (by decide)
  · exact (lastFailureTime_amended (StatePattern.CircuitBreaker.new cfgEx)
      (EnumVariant.CircuitBreaker.new cfgEx) ⟨10, false, 0⟩ cfgEx
      [⟨10, false, 0⟩]).2.2.2.2 (by decide)

/-- Running consecutive failures from a Closed state-pattern breaker whose
current count plus the number of failures stays within the threshold: the
count accumulates, the state stays Closed strictly below the threshold, and
reaching the threshold trips to Open at the last failure. -/
theorem sp_closed_failures_aux (es : List CallEvent) :
    ∀ b : StatePattern.CircuitBreaker, b.state = .CLOSED →
      (∀ x ∈ es, x.ok = false) →
      b.failureCount + es.length ≤ b.config.failureThreshold →
      ((StatePattern.CircuitBreaker.runCalls b es).1.failureCount
          = b.failureCount + es.length ∧
       (b.failureCount + es.length < b.config.failureThreshold →
         (StatePattern.CircuitBreaker.runCalls b es).1.state = .CLOSED) ∧
       (b.failureCount + es.length = b.config.failureThreshold → 0 < es.length →
         (StatePattern.CircuitBreaker.runCalls b es).1.state = .OPEN)) := by
  induction es with
  | nil =>
    intro b hst _ _
    refine ⟨by simp [spRunCalls_nil], fun _ => by simp [spRunCalls_nil, hst],
      fun _ h0 => by simp at h0⟩
  | cons e es ih =>
    intro b hst hfail hle
    have hok : e.ok = false := hfail e (List.mem_cons_self _ _)
    have hfail' : ∀ x ∈ es, x.ok = false := fun x hx => hfail x (List.mem_cons_of_mem _ hx)
    simp only [List.length_cons] at hle ⊢
    have hstep : b.callService e = (.serviceError,
        StatePattern.closedOnFailure (b.recordResponseTime e.dur) (e.now + e.dur), 1) := by
      simp [StatePattern.CircuitBreaker.callService, hst, StatePattern.closedCallService, hok]
    by_cases hth : b.config.failureThreshold ≤ b.failureCount + 1
    · have hlen : es.length = 0 := by omega
      obtain rfl : es = [] := List.length_eq_zero.mp hlen
      have h1 : (StatePattern.closedOnFailure (b.recordResponseTime e.dur)
          (e.now + e.dur)).state = .OPEN := by
        simp [StatePattern.closedOnFailure, StatePattern.CircuitBreaker.recordFailure,
          StatePattern.CircuitBreaker.recordResponseTime, hth]
      have h2 : (StatePattern.closedOnFailure (b.recordResponseTime e.dur)
          (e.now + e.dur)).failureCount = b.failureCount + 1 := by
        simp [StatePattern.closedOnFailure, StatePattern.CircuitBreaker.recordFailure,
          StatePattern.CircuitBreaker.recordResponseTime, hth]
      rw [spRunCalls_cons, hstep]
      refine ⟨by simpa [spRunCalls_nil] using h2,
        fun hlt => by omega,
        fun _ _ => by simpa [spRunCalls_nil] using h1⟩
    · have h1 : (StatePattern.closedOnFailure (b.recordResponseTime e.dur)
          (e.now + e.dur)).state = .CLOSED := by
        simp [StatePattern.closedOnFailure, StatePattern.CircuitBreaker.recordFailure,
          StatePattern.CircuitBreaker.recordResponseTime, hth, hst]
      have h2 : (StatePattern.closedOnFailure (b.recordResponseTime e.dur)
          (e.now + e.dur)).failureCount = b.failureCount + 1 := by
        simp [StatePattern.closedOnFailure, StatePattern.CircuitBreaker.recordFailure,
          StatePattern.CircuitBreaker.recordResponseTime, hth]
      have h3 : (StatePattern.closedOnFailure (b.recordResponseTime e.dur)
          (e.now + e.dur)).config = b.config := by
        simp only [StatePattern.closedOnFailure, StatePattern.CircuitBreaker.recordFailure,
          StatePattern.CircuitBreaker.recordResponseTime]
        split_ifs
        all_goals rfl
      obtain ⟨i1, i2, i3⟩ := ih (StatePattern.closedOnFailure (b.recordResponseTime e.dur)
        (e.now + e.dur)) h1 hfail' (by rw [h2, h3]; omega)
      rw [spRunCalls_cons, hstep]
      refine ⟨?_, ?_, ?_⟩
      · simpa [i1, h2] using by omega
      · intro hlt
        exact i2 (by rw [h2, h3]; omega)
      · intro heq _
        exact i3 (by rw [h2, h3]; omega) (by omega)

/-- Enum-variant analogue of sp_closed_failures_aux. -/
theorem en_closed_failures_aux (es : List CallEvent) :
    ∀ b : EnumVariant.CircuitBreaker, b.state = .CLOSED →
      (∀ x ∈ es, x.ok = false) →
      b.failureCount + es.length ≤ b.config.failureThreshold →
      ((EnumVariant.CircuitBreaker.runCalls b es).1.failureCount
          = b.failureCount + es.length ∧
       (b.failureCount + es.length < b.config.failureThreshold →
         (EnumVariant.CircuitBreaker.runCalls b es).1.state = .CLOSED) ∧
       (b.failureCount + es.length = b.config.failureThreshold → 0 < es.length →
         (EnumVariant.CircuitBreaker.runCalls b es).1.state = .OPEN)) := by
  induction es with
  | nil =>
    intro b hst _ _
    refine ⟨by simp [enRunCalls_nil], fun _ => by simp [enRunCalls_nil, hst],
      fun _ h0 => by simp at h0⟩
  | cons e es ih =>
    intro b hst hfail hle
    have hok : e.ok = false := hfail e (List.mem_cons_self _ _)
    have hfail' : ∀ x ∈ es, x.ok = false := fun x hx => hfail x (List.mem_cons_of_mem _ hx)
    simp only [List.length_cons] at hle ⊢
    have hstep : b.callService e = (.serviceError,
        (b.pushResponseTime e.dur).onFailure (e.now + e.dur), 1) := by
      simp [EnumVariant.CircuitBreaker.callService, hst, hok]
    by_cases hth : b.config.failureThreshold ≤ b.failureCount + 1
    · have hlen : es.length = 0 := by omega
      obtain rfl : es = [] := List.length_eq_zero.mp hlen
      have h1 : ((b.pushResponseTime e.dur).onFailure (e.now + e.dur)).state = .OPEN := by
        simp [EnumVariant.CircuitBreaker.onFailure,
          EnumVariant.CircuitBreaker.pushResponseTime, hst, hth]
      have h2 : ((b.pushResponseTime e.dur).onFailure (e.now + e.dur)).failureCount
          = b.failureCount + 1 := by
        simp [EnumVariant.CircuitBreaker.onFailure,
          EnumVariant.CircuitBreaker.pushResponseTime, hst, hth]
      rw [enRunCalls_cons, hstep]
      refine ⟨by simpa [enRunCalls_nil] using h2,
        fun hlt => by omega,
        fun _ _ => by simpa [enRunCalls_nil] using h1⟩
    · have h1 : ((b.pushResponseTime e.dur).onFailure (e.now + e.dur)).state = .CLOSED := by
        simp [EnumVariant.CircuitBreaker.onFailure,
          EnumVariant.CircuitBreaker.pushResponseTime, hst, hth]
      have h2 : ((b.pushResponseTime e.dur).onFailure (e.now + e.dur)).failureCount
          = b.failureCount + 1 := by
        simp [EnumVariant.CircuitBreaker.onFailure,
          EnumVariant.CircuitBreaker.pushResponseTime, hst, hth]
      have h3 : ((b.pushResponseTime e.dur).onFailure (e.now + e.dur)).config = b.config := by
        simp only [EnumVariant.CircuitBreaker.onFailure,
          EnumVariant.CircuitBreaker.pushResponseTime]
        split_ifs <;> rfl
      obtain ⟨i1, i2, i3⟩ := ih ((b.pushResponseTime e.dur).onFailure (e.now + e.dur))
        h1 hfail' (by rw [h2, h3]; omega)
      rw [enRunCalls_cons, hstep]
      refine ⟨?_, ?_, ?_⟩
      · simpa [i1, h2] using by omega
      · intro hlt
        exact i2 (by rw [h2, h3]; omega)
      · intro heq _
        exact i3 (by rw [h2, h3]; omega) (by omega)

/-- C8: from a freshly constructed breaker, any run of fewer than
failureThreshold consecutive failures leaves the state Closed with the
count equal to the number of failures, and exactly failureThreshold
consecutive failures ends Open, the trip happening at the threshold-th
failure — in both variants. -/
theorem closed_failure_threshold_trip (cfg : CircuitBreakerConfig) (es : List CallEvent)
    (hft : 1 ≤ cfg.failureThreshold) (hfail : ∀ x ∈ es, x.ok = false) :
    ((es.length < cfg.failureThreshold →
       ((StatePattern.CircuitBreaker.new cfg).runCalls es).1.state = .CLOSED ∧
       ((StatePattern.CircuitBreaker.new cfg).runCalls es).1.failureCount = es.length) ∧
     (es.length = cfg.failureThreshold →
       ((StatePattern.CircuitBreaker.new cfg).runCalls es).1.state = .OPEN)) ∧
    ((es.length < cfg.failureThreshold →
       ((EnumVariant.CircuitBreaker.new cfg).runCalls es).1.state = .CLOSED ∧
       ((EnumVariant.CircuitBreaker.new cfg).runCalls es).1.failureCount = es.length) ∧
     (es.length = cfg.failureThreshold →
       ((EnumVariant.CircuitBreaker.new cfg).runCalls es).1.state = .OPEN)) := by
  constructor
  · constructor
    · intro hlt
      obtain ⟨i1, i2, _⟩ := sp_closed_failures_aux es (StatePattern.CircuitBreaker.new cfg)
        rfl hfail (by simpa [StatePattern.CircuitBreaker.new] using Nat.le_of_lt hlt)
      exact ⟨i2 (by simpa [StatePattern.CircuitBreaker.new] using hlt),
        by simpa [StatePattern.CircuitBreaker.new] using i1⟩
    · intro heq
      obtain ⟨_, _, i3⟩ := sp_closed_failures_aux es (StatePattern.CircuitBreaker.new cfg)
        rfl hfail (by simp [StatePattern.CircuitBreaker.new, heq])
      exact i3 (by simpa [StatePattern.CircuitBreaker.new] using heq) (by omega)
  · constructor
    · intro hlt
      obtain ⟨i1, i2, _⟩ := en_closed_failures_aux es (EnumVariant.CircuitBreaker.new cfg)
        rfl hfail (by simpa [EnumVariant.CircuitBreaker.new] using Nat.le_of_lt hlt)
      exact ⟨i2 (by simpa [EnumVariant.CircuitBreaker.new] using hlt),
        by simpa [EnumVariant.CircuitBreaker.new] using i1⟩
    · intro heq
      obtain ⟨_, _, i3⟩ := en_closed_failures_aux es (EnumVariant.CircuitBreaker.new cfg)
        rfl hfail (by simp [EnumVariant.CircuitBreaker.new, heq])
      exact i3 (by simpa [EnumVariant.CircuitBreaker.new] using heq) (by omega)

/-- Witness for C8 with threshold 2: one failure keeps both variants
Closed with count 1; two failures trip both to Open. -/
theorem closed_failure_threshold_trip_witness :
    (((StatePattern.CircuitBreaker.new ⟨2, 1, 1⟩).runCalls
        [⟨10, false, 0⟩]).1.state = .CLOSED ∧
     ((StatePattern.CircuitBreaker.new ⟨2, 1, 1⟩).runCalls
        [⟨10, false, 0⟩]).1.failureCount = 1) ∧
    ((StatePattern.CircuitBreaker.new ⟨2, 1, 1⟩).runCalls
        [⟨10, false, 0⟩, ⟨20, false, 0⟩]).1.state = .OPEN ∧
    ((EnumVariant.CircuitBreaker.new ⟨2, 1, 1⟩).runCalls
        [⟨10, false, 0⟩, ⟨20, false, 0⟩]).1.state = .OPEN := by
  refine ⟨?_, ?_, ?_⟩
  · have h := (closed_failure_threshold_trip ⟨2, 1, 1⟩ [⟨10, false, 0⟩]
      (by decide) (by decide)).1.1 (by decide)
    simpa using h
  · exact (closed_failure_threshold_trip ⟨2, 1, 1⟩ [⟨10, false, 0⟩, ⟨20, false, 0⟩]
      (by decide) (by decide)).1.2 (by decide)
  · exact (closed_failure_threshold_trip ⟨2, 1, 1⟩ [⟨10, false, 0⟩, ⟨20, false, 0⟩]
      (by decide) (by decide)).2.2 (by decide)

/-- Every enum-variant call appends exactly one sample. -/
theorem en_step_responseTimes (b : EnumVariant.CircuitBreaker) (e : CallEvent) :
    (b.callService e).2.1.responseTimes.length = b.responseTimes.length + 1 := by
  obtain ⟨st, fc, lf, cfg, rts⟩ := b
  obtain ⟨now, ok, dur⟩ := e
  cases st <;> cases ok <;>
    simp_all [EnumVariant.CircuitBreaker.callService, EnumVariant.CircuitBreaker.onSuccess,
      EnumVariant.CircuitBreaker.onFailure, EnumVariant.CircuitBreaker.reset,
      EnumVariant.CircuitBreaker.pushResponseTime, EnumVariant.openGate] <;>
    split_ifs <;> simp_all

/-- Over any run, the enum variant's history grows by exactly the number
of calls. -/
theorem en_run_responseTimes (es : List CallEvent) :
    ∀ b : EnumVariant.CircuitBreaker,
      (EnumVariant.CircuitBreaker.runCalls b es).1.responseTimes.length
        = b.responseTimes.length + es.length := by
  induction es with
  | nil => intro b; simp [enRunCalls_nil]
  | cons e es ih =>
    intro b
    rw [enRunCalls_cons]
    have h := en_step_responseTimes b e
    have h2 := ih (b.callService e).2.1
    simp only [List.length_cons]
    omega

/-- C3 amended: every call attempt appends exactly one sample to
responseTimes except a state-pattern probe-limit rejection, which appends
none; the enum variant appends exactly one per call, so its history length
equals the number of calls made. -/
theorem responseTimes_per_call_amended (b : StatePattern.CircuitBreaker)
    (en : EnumVariant.CircuitBreaker) (e : CallEvent) (es : List CallEvent) :
    ((b.callService e).1 ≠ .maxHalfOpenExceeded →
      (b.callService e).2.1.responseTimes.length = b.responseTimes.length + 1) ∧
    ((b.callService e).1 = .maxHalfOpenExceeded →
      (b.callService e).2.1.responseTimes = b.responseTimes) ∧
    (en.callService e).2.1.responseTimes.length = en.responseTimes.length + 1 ∧
    (EnumVariant.CircuitBreaker.runCalls en es).1.responseTimes.length
      = en.responseTimes.length + es.length := by
  refine ⟨?_, ?_, en_step_responseTimes en e, en_run_responseTimes es en⟩
  · intro hne
    obtain ⟨st, fc, lf, cfg, rts, hoc⟩ := b
    obtain ⟨now, ok, dur⟩ := e
    cases st <;> cases ok <;>
      simp_all [StatePattern.CircuitBreaker.callService, StatePattern.closedCallService,
        StatePattern.halfOpenCallService, StatePattern.closedOnSuccess,
        StatePattern.closedOnFailure, StatePattern.halfOpenOnSuccess,
        StatePattern.halfOpenOnFailure, StatePattern.CircuitBreaker.reset,
        StatePattern.CircuitBreaker.recordFailure,
        StatePattern.CircuitBreaker.recordResponseTime,
        StatePattern.CircuitBreaker.incrementHalfOpenRequest] <;>
      split_ifs <;> simp_all
  · intro heq
    obtain ⟨st, fc, lf, cfg, rts, hoc⟩ := b
    obtain ⟨now, ok, dur⟩ := e
    cases st <;> cases ok <;>
      simp_all [StatePattern.CircuitBreaker.callService, StatePattern.closedCallService,
        StatePattern.halfOpenCallService, StatePattern.closedOnSuccess,
        StatePattern.closedOnFailure, StatePattern.halfOpenOnSuccess,
        StatePattern.halfOpenOnFailure, StatePattern.CircuitBreaker.reset,
        StatePattern.CircuitBreaker.recordFailure,
        StatePattern.CircuitBreaker.recordResponseTime,
        StatePattern.CircuitBreaker.incrementHalfOpenRequest] <;>
      split_ifs <;> simp_all

/-- Witness for the amended C3 at a Closed call, a probe-limit rejection,
and a two-call enum run. -/
theorem responseTimes_per_call_amended_witness :
    ((StatePattern.CircuitBreaker.new cfgEx).callService
        ⟨10, false, 0⟩).2.1.responseTimes.length = 1 ∧
    (spAfterTwo.callService ⟨30, true, 0⟩).2.1.responseTimes = spAfterTwo.responseTimes ∧
    ((EnumVariant.CircuitBreaker.new cfgEx).runCalls
        [⟨10, false, 0⟩, ⟨20, false, 0⟩]).1.responseTimes.length = 2 := by
  refine ⟨?_, ?_, ?_⟩
  · exact (responseTimes_per_call_amended (StatePattern.CircuitBreaker.new cfgEx)
      (EnumVariant.CircuitBreaker.new cfgEx) ⟨10, false, 0⟩ []).1 (by decide)
  · exact (responseTimes_per_call_amended spAfterTwo
      (EnumVariant.CircuitBreaker.new cfgEx) ⟨30, true, 0⟩ []).2.1 (by decide)
  · exact (responseTimes_per_call_amended (StatePattern.CircuitBreaker.new cfgEx)
      (EnumVariant.CircuitBreaker.new cfgEx) ⟨10, false, 0⟩
      [⟨10, false, 0⟩, ⟨20, false, 0⟩]).2.2.2

/-- C7 amended: while Open with the cooldown elapsed, the call becomes a
single re-dispatch of the same event under Half-Open rules; it invokes the
operation exactly once and appends exactly one timing sample provided the
probe budget is not exhausted (the enum variant, which has no budget,
always invokes once); with the budget exhausted it is rejected without
execution and without a sample. -/
theorem open_cooldown_redispatch (b : StatePattern.CircuitBreaker) (e : CallEvent)
    (hs : b.state = .OPEN) (hg : StatePattern.openGate b e.now = true) :
    b.callService e = StatePattern.halfOpenCallService { b with state := .HALF_OPEN } e ∧
    (b.halfOpenRequestCount < b.config.maxHalfOpenRequests →
      (b.callService e).2.2 = 1 ∧
      (b.callService e).2.1.responseTimes = b.responseTimes ++ [e.dur]) ∧
    (b.config.maxHalfOpenRequests ≤ b.halfOpenRequestCount →
      (b.callService e).2.2 = 0 ∧
      (b.callService e).2.1.responseTimes = b.responseTimes) ∧
    (∀ en : EnumVariant.CircuitBreaker, en.state = .OPEN →
      EnumVariant.openGate en e.now = true →
      (en.callService e).2.2 = 1 ∧
      (en.callService e).2.1.responseTimes = en.responseTimes ++ [e.dur]) := by
  refine ⟨by simp [StatePattern.CircuitBreaker.callService, hs, hg], ?_, ?_, ?_⟩
  · intro hc
    have hc' : ¬ b.config.maxHalfOpenRequests ≤ b.halfOpenRequestCount := by omega
    cases hok : e.ok <;>
      simp [StatePattern.CircuitBreaker.callService, hs, hg,
        StatePattern.halfOpenCallService, hc', hok, StatePattern.halfOpenOnSuccess,
        StatePattern.halfOpenOnFailure, StatePattern.CircuitBreaker.reset,
        StatePattern.CircuitBreaker.recordResponseTime,
        StatePattern.CircuitBreaker.incrementHalfOpenRequest]
  · intro hc
    simp [StatePattern.CircuitBreaker.callService, hs, hg,
      StatePattern.halfOpenCallService, hc]
  · intro en hs2 hg2
    cases hok : e.ok <;>
      simp [EnumVariant.CircuitBreaker.callService, hs2, hg2, hok,
        EnumVariant.CircuitBreaker.onSuccess, EnumVariant.CircuitBreaker.onFailure,
        EnumVariant.CircuitBreaker.reset, EnumVariant.CircuitBreaker.pushResponseTime]

/-- Witness for the amended C7 at a concrete Open breaker with a free probe
slot and at one with the budget exhausted. -/
theorem open_cooldown_redispatch_witness :
    (StatePattern.CircuitBreaker.callService ⟨.OPEN, 1, some 10, cfgEx, [], 0⟩
        ⟨20, true, 7⟩).2.2 = 1 ∧
    (StatePattern.CircuitBreaker.callService ⟨.OPEN, 1, some 10, cfgEx, [], 0⟩
        ⟨20, true, 7⟩).2.1.responseTimes = [7] ∧
    (spAfterTwo.callService ⟨40, true, 0⟩).2.2 = 0 ∧
    (EnumVariant.CircuitBreaker.callService ⟨.OPEN, 1, some 10, cfgEx, []⟩
        ⟨20, true, 7⟩).2.2 = 1 := by
  refine ⟨?_, ?_, ?_, ?_⟩
  · exact ((open_cooldown_redispatch ⟨.OPEN, 1, some 10, cfgEx, [], 0⟩ ⟨20, true, 7⟩
      rfl (by decide)).2.1 (by decide)).1
  · exact ((open_cooldown_redispatch ⟨.OPEN, 1, some 10, cfgEx, [], 0⟩ ⟨20, true, 7⟩
      rfl (by decide)).2.1 (by decide)).2
  · exact ((open_cooldown_redispatch spAfterTwo ⟨40, true, 0⟩ (by decide)
      (by decide)).2.2.1 (by decide)).1
  · exact ((open_cooldown_redispatch ⟨.OPEN, 1, some 10, cfgEx, [], 0⟩ ⟨20, true, 7⟩
      rfl (by decide)).2.2.2 ⟨.OPEN, 1, some 10, cfgEx, []⟩ rfl (by decide)).1

/-- C1 amended: on any Closed-state call and on any blocked Open-state call
the two variants agree — same produced result, same number of operation
invocations, and agreeing successor states on all shared fields; they
diverge only on calls dispatched under Half-Open rules. -/
theorem variants_agree_outside_halfOpen (sp : StatePattern.CircuitBreaker)
    (en : EnumVariant.CircuitBreaker) (e : CallEvent) (hR : Agrees sp en)
    (h : sp.state = .CLOSED ∨
      (sp.state = .OPEN ∧ StatePattern.openGate sp e.now = false)) :
    (sp.callService e).1 = (en.callService e).1 ∧
    (sp.callService e).2.2 = (en.callService e).2.2 ∧
    Agrees (sp.callService e).2.1 (en.callService e).2.1 := by
  obtain ⟨st, fc, lf, cfg, rts, hoc⟩ := sp
  obtain ⟨st2, fc2, lf2, cfg2, rts2⟩ := en
  obtain ⟨h1, h2, h3, h4, h5⟩ := hR
  obtain ⟨now, ok, dur⟩ := e
  simp only at h1 h2 h3 h4 h5
  subst h1
  subst h2
  subst h3
  subst h4
  subst h5
  rcases h with hs | ⟨hs, hg⟩
  · simp only at hs
    subst hs
    cases ok
    all_goals
      simp_all [StatePattern.CircuitBreaker.callService, StatePattern.closedCallService,
        StatePattern.closedOnSuccess, StatePattern.closedOnFailure,
        StatePattern.CircuitBreaker.reset, StatePattern.CircuitBreaker.recordFailure,
        StatePattern.CircuitBreaker.recordResponseTime,
        EnumVariant.CircuitBreaker.callService, EnumVariant.CircuitBreaker.onSuccess,
        EnumVariant.CircuitBreaker.onFailure, EnumVariant.CircuitBreaker.reset,
        EnumVariant.CircuitBreaker.pushResponseTime, Agrees]
    all_goals try split_ifs
    all_goals simp_all
  · simp only at hs
    subst hs
    have hsp : StatePattern.CircuitBreaker.callService
        ⟨.OPEN, fc, lf, cfg, rts, hoc⟩ ⟨now, ok, dur⟩
        = (.circuitOpen, ⟨.OPEN, fc, lf, cfg, rts ++ [0], hoc⟩, 0) := by
      simp [StatePattern.CircuitBreaker.callService, hg,
        StatePattern.CircuitBreaker.recordResponseTime]
    have hgen : EnumVariant.openGate ⟨.OPEN, fc, lf, cfg, rts⟩ now = false := hg
    have hen : EnumVariant.CircuitBreaker.callService
        ⟨.OPEN, fc, lf, cfg, rts⟩ ⟨now, ok, dur⟩
        = (.circuitOpen, ⟨.OPEN, fc, lf, cfg, rts ++ [0]⟩, 0) := by
      simp [EnumVariant.CircuitBreaker.callService, hgen,
        EnumVariant.CircuitBreaker.pushResponseTime]
    rw [hsp, hen]
    exact ⟨rfl, rfl, rfl, rfl, rfl, rfl, rfl⟩

/-- Witness for the amended C1 at a fresh Closed pair. -/
theorem variants_agree_outside_halfOpen_witness :
    ((StatePattern.CircuitBreaker.new cfgEx).callService ⟨10, false, 0⟩).1
      = ((EnumVariant.CircuitBreaker.new cfgEx).callService ⟨10, false, 0⟩).1 ∧
    Agrees ((StatePattern.CircuitBreaker.new cfgEx).callService ⟨10, false, 0⟩).2.1
      ((EnumVariant.CircuitBreaker.new cfgEx).callService ⟨10, false, 0⟩).2.1 := by
  have h := variants_agree_outside_halfOpen (StatePattern.CircuitBreaker.new cfgEx)
    (EnumVariant.CircuitBreaker.new cfgEx) ⟨10, false, 0⟩
    ⟨rfl, rfl, rfl, rfl, rfl⟩ (Or.inl rfl)
  exact ⟨h.1, h.2.2⟩

end CircuitBreakerTS
